import Mathlib

/-
  Verification of the identifier and slug resolution scheme of the GDVG
  media-catalog repository.

  The definitions below are a shallow embedding of:
    - src/lib/urlHelper.ts            (createSlug, getContentUrl, getPersonUrl,
                                       getContentTypePrefix, extractIdFromSlug)
    - src/services/contentService.ts  (fetchContentById, fetchContentByGdvgId,
                                       fetchContentBySlug)
    - src/services/personService.ts   (getPersonByName branch structure)
    - the alternate URL helper variant (namespace Alt below)

  Strings are modelled as Lean String values; JavaScript regular expression
  tests are modelled by named boolean predicates over the character list, and
  each predicate is documented with the regex it embeds.  JavaScript
  toLowerCase is modelled by mapping Char.toLower over the characters; this
  agrees with JavaScript on ASCII input, and every non-ASCII character is
  replaced by a hyphen by the following rewrite step in the one place where
  the distinction could matter (createSlug).
-/

namespace GDVG

/-- Model of the regex character class [0-9] (JavaScript \d without flags). -/
def isDigitChar (c : Char) : Bool :=
  '0' ≤ c && c ≤ '9'

/-- Model of the case-insensitive regex character class [0-9a-f] (with the i flag). -/
def isHexChar (c : Char) : Bool :=
  isDigitChar c || ('a' ≤ c && c ≤ 'f') || ('A' ≤ c && c ≤ 'F')

/-- Model of the regex character class [a-z0-9] used by createSlug. -/
def isSlugChar (c : Char) : Bool :=
  ('a' ≤ c && c ≤ 'z') || isDigitChar c

/-- Model of the JavaScript test /^\d+$/.test(s): s is non-empty and all digits. -/
def isPureNumeric (s : String) : Bool :=
  !s.data.isEmpty && s.data.all isDigitChar

/-- Model of JavaScript toLowerCase, mapping Char.toLower over the
characters (exact on ASCII input). -/
def lowerStr (s : String) : String :=
  String.mk (s.data.map Char.toLower)

/-- Replacement step of createSlug: models s.replace(/[^a-z0-9]+/g, "-"),
which rewrites every maximal run of characters outside [a-z0-9] to a single
hyphen.  The boolean argument records whether the current position is inside
such a run whose hyphen was already emitted. -/
def squashAux : Bool → List Char → List Char
  | _, [] => []
  | inRun, c :: rest =>
    if isSlugChar c then c :: squashAux false rest
    else if inRun then squashAux true rest
    else '-' :: squashAux true rest

/-- Model of s.replace(/[^a-z0-9]+/g, "-"). -/
def squashRuns (l : List Char) : List Char :=
  squashAux false l

/-- Trailing-hyphen removal: models the -+$ alternative of the strip regex of
createSlug, removing the maximal trailing run of hyphens. -/
def dropTrail : List Char → List Char
  | [] => []
  | c :: rest =>
    let r := dropTrail rest
    if r.isEmpty then (if c == '-' then [] else [c]) else c :: r

/-- Model of createSlug from src/lib/urlHelper.ts (the identical copy in the
alternate URL helper source is embedded by this same definition):
lowercase, collapse non-alphanumeric runs to hyphens (replace
/[^a-z0-9]+/g), strip leading and trailing hyphens (replace /^-+|-+$/g,
modelled as dropWhile for the leading run and dropTrail for the trailing
run), then substring(0, 50). -/
def createSlug (t : String) : String :=
  String.mk
    (List.take 50
      (dropTrail
        (List.dropWhile (fun c => c == '-')
          (squashRuns (t.data.map Char.toLower)))))

/-- Splitting on a separator character with JavaScript split semantics:
splitOnChar sep l is never empty, and the empty list splits to a single
empty group, like "".split(sep) in JavaScript. -/
def splitOnChar (sep : Char) : List Char → List (List Char)
  | [] => [[]]
  | c :: rest =>
    match splitOnChar sep rest with
    | [] => [[]]
    | g :: gs => if c == sep then [] :: g :: gs else (c :: g) :: gs

/-- Model of parts = s.split("-"); parts[parts.length - 1] from
extractIdFromSlug and fetchContentBySlug. -/
def lastHyphenPart (s : String) : String :=
  String.mk ((splitOnChar '-' s.data).getLastD [])

/-- Model of the anchored case-insensitive UUID regex
/\x5e[0-9a-f]8-[0-9a-f]4-[0-9a-f]4-[0-9a-f]4-[0-9a-f]12$/i over a
character list: length 36, hyphens at positions 8, 13, 18 and 23, hex
digits everywhere else. -/
def uuidShape (l : List Char) : Bool :=
  l.length == 36 &&
    (List.range 36).all fun i =>
      if i == 8 || i == 13 || i == 18 || i == 23 then l.getD i ' ' == '-'
      else isHexChar (l.getD i ' ')

/-- Model of the full-UUID test used by extractIdFromSlug, fetchContentBySlug
and getPersonByName. -/
def isUUID (s : String) : Bool :=
  uuidShape s.data

/-- Model of s.match(end-anchored UUID regex): the pattern has the fixed
length 36 and is anchored at the end, so a match exists exactly when the
string has at least 36 characters and its last 36 characters have the UUID
shape; the captured group is then that 36-character tail. -/
def uuidSuffix (s : String) : Option String :=
  let l := s.data
  if 36 ≤ l.length && uuidShape (l.drop (l.length - 36)) then
    some (String.mk (l.drop (l.length - 36)))
  else none

/-- Model of the test /\x5e[0-9a-f]8$/i on the last hyphen-delimited part. -/
def isShortHexStr (s : String) : Bool :=
  s.data.length == 8 && s.data.all isHexChar

/-- Embedding of extractIdFromSlug from src/lib/urlHelper.ts: pure number
first, then full UUID, then UUID suffix, then 8-hex final hyphen part, and
otherwise the input itself. -/
def extractIdFromSlug (slugOrId : String) : String :=
  if isPureNumeric slugOrId then slugOrId
  else if isUUID slugOrId then slugOrId
  else
    match uuidSuffix slugOrId with
    | some u => u
    | none =>
      let lastPart := lastHyphenPart slugOrId
      if isShortHexStr lastPart then lastPart else slugOrId

/-- Spec-side tagged union of section 4.2 of the specification.  The
constructor names follow the spec: publicId, canonicalId,
embeddedCanonicalId, legacyTitle; shortHexId is the shape the spec calls
the short 8-hex-character identifier. -/
inductive Candidate where
  | publicId (s : String)
  | canonicalId (s : String)
  | embeddedCanonicalId (s : String)
  | shortHexId (s : String)
  | legacyTitle (s : String)
deriving DecidableEq, Repr

/-- Spec-side resolver of section 4.2: classify a URL segment into the
five recognized shapes, testing them in the fixed priority order the spec
documents (PublicId, CanonicalId, EmbeddedCanonicalId, the 8-hex short
shape, LegacyTitle). -/
def resolveIdentifier (s : String) : Candidate :=
  if isPureNumeric s then .publicId s
  else if isUUID s then .canonicalId s
  else
    match uuidSuffix s with
    | some u => .embeddedCanonicalId u
    | none =>
      if isShortHexStr (lastHyphenPart s) then .shortHexId (lastHyphenPart s)
      else .legacyTitle s

/-- Payload carried by a candidate: the lookup key the shape denotes. -/
def candPayload : Candidate → String
  | .publicId s | .canonicalId s | .embeddedCanonicalId s
  | .shortHexId s | .legacyTitle s => s

/-- Model of parseInt(s, 10) on an all-digit string: the decimal value. -/
def parseDigits (l : List Char) : Nat :=
  l.foldl (fun a c => a * 10 + (c.toNat - '0'.toNat)) 0

/-- Model of s.replace(underscore regex, " ") from the legacy-title branch
of fetchContentBySlug. -/
def underscoreToSpace (s : String) : String :=
  String.mk (s.data.map fun c => if c == '_' then ' ' else c)

/-- The query strategy a resolver dispatches to, one constructor per
distinct backing-store query issued by contentService.fetchContentBySlug
and personService.getPersonByName: exact gdvg_id match, exact id match,
case-insensitive id prefix match, case-insensitive title match, and
case-insensitive name match. -/
inductive LookupPlan where
  | byGdvgId (n : Nat)
  | byId (s : String)
  | byIdStart (s : String)
  | byTitleLike (s : String)
  | byNameLike (s : String)
deriving DecidableEq, Repr

/-- Branch structure of fetchContentBySlug from
src/services/contentService.ts, abstracted to the query it dispatches:
numeric goes to fetchContentByGdvgId(parseInt(slug, 10)); a full UUID and
an extracted UUID suffix go to fetchContentById; an 8-hex final hyphen
part goes to the ilike id-prefix query on its lowercasing; everything else
goes to the ilike title query after underscores become spaces. -/
def contentLookupPlan (slug : String) : LookupPlan :=
  if isPureNumeric slug then .byGdvgId (parseDigits slug.data)
  else if isUUID slug then .byId slug
  else
    match uuidSuffix slug with
    | some u => .byId u
    | none =>
      if isShortHexStr (lastHyphenPart slug) then
        .byIdStart (lowerStr (lastHyphenPart slug))
      else .byTitleLike (underscoreToSpace slug)

/-- Branch structure of getPersonByName from src/services/personService.ts,
abstracted to the query it dispatches: numeric goes to
getPersonByGdvgId(parseInt(nameOrId, 10)); a full UUID goes to
getPersonById; everything else goes to the ilike name query. -/
def personLookupPlan (nameOrId : String) : LookupPlan :=
  if isPureNumeric nameOrId then .byGdvgId (parseDigits nameOrId.data)
  else if isUUID nameOrId then .byId nameOrId
  else .byNameLike nameOrId

/-- Content record as consumed by the URL builder: the fields of the
Content interface that getContentUrl reads.  gdvg_id is the numeric public
identifier column selected from the database; it is absent (none) on
unmigrated rows. -/
structure Content where
  id : String
  content_type : String
  title : String
  gdvg_id : Option Nat
deriving DecidableEq, Repr

/-- Person record as consumed by getPersonUrl. -/
structure Person where
  id : String
  name : String
  gdvg_id : Option Nat
deriving DecidableEq, Repr

/-- JavaScript falsiness of the optional numeric gdvg_id field: the guard
if (!x) is taken when the field is undefined or null (none here) and also
when it is the number 0. -/
def jsFalsy : Option Nat → Bool
  | none => true
  | some n => n == 0

/-- Embedding of getContentTypePrefix from src/lib/urlHelper.ts (the switch
on contentType.toLowerCase()). -/
def getContentTypePfx (contentType : String) : String :=
  match lowerStr contentType with
  | "tv" => "series"
  | "movie" => "movies"
  | "drama" => "drama"
  | "anime" => "anime"
  | "variety" => "variety"
  | "documentary" => "documentary"
  | _ => "title"

/-- Embedding of getContentUrl from src/lib/urlHelper.ts.  A thrown
JavaScript Error is modelled as Except.error carrying the message string
built by the throw site; the returned URL is Except.ok. -/
def getContentUrl (content : Content) : Except String String :=
  if jsFalsy content.gdvg_id then
    Except.error ("Content \"" ++ content.title ++ "\" is missing gdvg_id")
  else
    let px := getContentTypePfx content.content_type
    let slug := createSlug content.title
    let gid := toString (content.gdvg_id.getD 0)
    if slug ≠ "" then Except.ok ("/" ++ px ++ "/" ++ gid ++ "/" ++ slug)
    else Except.ok ("/" ++ px ++ "/" ++ gid)

/-- Embedding of getPersonUrl from src/lib/urlHelper.ts. -/
def getPersonUrl (person : Person) : Except String String :=
  if jsFalsy person.gdvg_id then
    Except.error ("Person \"" ++ person.name ++
      "\" is missing gdvg_id. Ensure gdvg_id is selected in database query.")
  else
    let slug := createSlug person.name
    let gid := toString (person.gdvg_id.getD 0)
    if slug ≠ "" then Except.ok ("/people/" ++ gid ++ "/" ++ slug)
    else Except.ok ("/people/" ++ gid)

/-- Path segments of a URL string: the groups obtained by splitting on the
slash character, JavaScript split semantics.  For a path of the form
/a/b/c the list is ["", "a", "b", "c"], so the second path segment is at
index 2. -/
def pathSegs (s : String) : List String :=
  (splitOnChar '/' s.data).map String.mk

/-- Final path segment of a URL string. -/
def lastSeg (s : String) : String :=
  (pathSegs s).getLastD ""

/-- URL produced by getContentUrl, or the empty string when it throws. -/
def urlOrEmpty (c : Content) : String :=
  match getContentUrl c with
  | Except.ok u => u
  | Except.error _ => ""

namespace Alt

/-- Content record of the alternate URL helper source file: id is required,
the other fields are optional there. -/
structure Content where
  id : String
  content_type : Option String
  title : Option String
  name : Option String
deriving DecidableEq, Repr

/-- JavaScript a || b on an optional string a: b when a is undefined or the
empty string. -/
def jsOrStr (a : Option String) (b : String) : String :=
  match a with
  | none => b
  | some s => if s == "" then b else s

/-- Embedding of getContentTypePrefix from the alternate URL helper: the
guard if (!contentType) returns "title" (covering undefined and the empty
string, and the empty string also reaches the default case), and the
switch knows only tv, movie, drama and anime. -/
def getContentTypePfx (contentType : Option String) : String :=
  match contentType with
  | none => "title"
  | some s =>
    match lowerStr s with
    | "tv" => "series"
    | "movie" => "movies"
    | "drama" => "drama"
    | "anime" => "anime"
    | _ => "title"

/-- Embedding of getContentUrl from the alternate URL helper: no gdvg_id is
involved; the short identifier is content.id.substring(0, 8) and the URL is
/[type]/[slug]-[short-id], or /[type]/[short-id] when the slug is empty.
The function is total: every branch returns a string. -/
def getContentUrl (content : Content) : String :=
  let px := getContentTypePfx content.content_type
  let title := jsOrStr content.title (jsOrStr content.name "")
  let slug := createSlug title
  let shortId := String.mk (content.id.data.take 8)
  if slug ≠ "" then "/" ++ px ++ "/" ++ slug ++ "-" ++ shortId
  else "/" ++ px ++ "/" ++ shortId

end Alt

/-- Database row of the content (or people) table, reduced to the columns
the embedded queries read. -/
structure Row where
  id : String
  gdvg_id : Option Nat
  title : String
  status : String
deriving DecidableEq, Repr

/-- Backing store together with an optional transport failure: when failure
is set, every query returns that error (the supabase client surfaces it in
the error field of the response). -/
structure Backend where
  rows : List Row
  failure : Option String
deriving DecidableEq, Repr

/-- Run a filtered select against the backend: transport failure yields the
error, otherwise the matching rows. -/
def queryRun (b : Backend) (p : Row → Bool) : Except String (List Row) :=
  match b.failure with
  | some e => Except.error e
  | none => Except.ok (b.rows.filter p)

/-- Model of PostgREST .single(): an error unless exactly one row matched. -/
def singleRow : Except String (List Row) → Except String Row
  | Except.error e => Except.error e
  | Except.ok [r] => Except.ok r
  | Except.ok _ => Except.error "single row expected"

/-- Case-insensitive prefix match: models .filter(column, ilike, pat + percent). -/
def ilikeStart (pat s : String) : Bool :=
  List.isPrefixOf (lowerStr pat).data (lowerStr s).data

/-- Case-insensitive match of a pattern without wildcards against a column:
models .ilike(column, pat).  SQL wildcard characters inside the pattern are
not modelled; none of the verified claims exercises them. -/
def ilikeEq (pat s : String) : Bool :=
  lowerStr pat == lowerStr s

/-- Embedding of fetchContentById from src/services/contentService.ts: a
single-row select on id and published status; any error (no row, several
rows, transport failure) is swallowed and null is returned.  The outer
Except is the JavaScript exception channel of the async function: this
function never uses it. -/
def fetchContentById (b : Backend) (id : String) : Except String (Option Row) :=
  match singleRow (queryRun b (fun r => r.id == id && r.status == "published")) with
  | Except.error _ => Except.ok none
  | Except.ok r => Except.ok (some r)

/-- Embedding of fetchContentByGdvgId from src/services/contentService.ts,
after the parseInt normalization of the argument. -/
def fetchContentByGdvgId (b : Backend) (g : Nat) : Except String (Option Row) :=
  match singleRow (queryRun b (fun r => r.gdvg_id == some g && r.status == "published")) with
  | Except.error _ => Except.ok none
  | Except.ok r => Except.ok (some r)

/-- Embedding of fetchContentBySlug from src/services/contentService.ts:
the same shape cascade as extractIdFromSlug, each branch dispatching its
own query; the short-hex branch uses an ilike prefix query on id limited to
one row, and the fallback is an ilike title query on the segment with
underscores turned into spaces.  Every error path returns null. -/
def fetchContentBySlug (b : Backend) (slug : String) : Except String (Option Row) :=
  if isPureNumeric slug then fetchContentByGdvgId b (parseDigits slug.data)
  else if isUUID slug then fetchContentById b slug
  else
    match uuidSuffix slug with
    | some u => fetchContentById b u
    | none =>
      if isShortHexStr (lastHyphenPart slug) then
        match queryRun b (fun r => r.status == "published"
            && ilikeStart (lowerStr (lastHyphenPart slug)) r.id) with
        | Except.error _ => Except.ok none
        | Except.ok rows =>
          match rows.take 1 with
          | [] => Except.ok none
          | r :: _ => Except.ok (some r)
      else
        match singleRow (queryRun b (fun r => r.status == "published"
            && ilikeEq (underscoreToSpace slug) r.title)) with
        | Except.error _ => Except.ok none
        | Except.ok r => Except.ok (some r)

/-- Decimal digit list of a natural number, most significant digit first;
reference recursion used to reason about the decimal rendering toString
performs through Nat.toDigitsCore. -/
def specDigits (n : Nat) : List Char :=
  if n < 10 then [Nat.digitChar n]
  else specDigits (n / 10) ++ [Nat.digitChar (n % 10)]
decreasing_by exact Nat.div_lt_self (by omega) (by omega)

/-- Lookup plan the dispatcher table of section 4.4 of the spec assigns to
each candidate shape for content lookups. -/
def candContentPlan : Candidate → LookupPlan
  | .publicId p => .byGdvgId (parseDigits p.data)
  | .canonicalId cid => .byId cid
  | .embeddedCanonicalId u => .byId u
  | .shortHexId hx => .byIdStart (lowerStr hx)
  | .legacyTitle t => .byTitleLike (underscoreToSpace t)

/-- Lookup plan person resolution actually assigns: only the first two
shapes are consulted, every other segment is looked up as a name. -/
def candPersonPlan (segment : String) : Candidate → LookupPlan
  | .publicId p => .byGdvgId (parseDigits p.data)
  | .canonicalId cid => .byId cid
  | _ => .byNameLike segment

-- Basic sanity checks of the embedding on concrete inputs.
example : createSlug "Breaking Bad" = "breaking-bad" := by decide
example : createSlug "!!!" = "" := by decide
example : createSlug "" = "" := by decide
example : createSlug "  Squid   Game!! " = "squid-game" := by decide
example : lastHyphenPart "breaking-bad-6a5562cf" = "6a5562cf" := by decide
example : lastHyphenPart "squid-game_6a5562cf" = "game_6a5562cf" := by decide
example : lastHyphenPart "abc" = "abc" := by decide
example : lastHyphenPart "" = "" := by decide
example : isPureNumeric "736993" = true := by decide
example : isPureNumeric "" = false := by decide
example : isPureNumeric "73a" = false := by decide
example : isUUID "6a5562cf-7748-43c3-a426-be788f87a5ac" = true := by decide
example : isUUID "6a5562cf" = false := by decide
example : uuidSuffix "breaking-bad-6a5562cf-7748-43c3-a426-be788f87a5ac"
    = some "6a5562cf-7748-43c3-a426-be788f87a5ac" := by decide
example : uuidSuffix "breaking-bad" = none := by decide
example : extractIdFromSlug "736993" = "736993" := by decide
example : extractIdFromSlug "breaking-bad-6a5562cf" = "6a5562cf" := by decide
example : extractIdFromSlug "squid-game_6a5562cf" = "squid-game_6a5562cf" := by decide
example : resolveIdentifier "breaking-bad-6a5562cf" = .shortHexId "6a5562cf" := by decide
example : resolveIdentifier "the_crown" = .legacyTitle "the_crown" := by decide
example : contentLookupPlan "the_crown" = .byTitleLike "the crown" := by decide
example : personLookupPlan "breaking-bad-6a5562cf" = .byNameLike "breaking-bad-6a5562cf" := by decide
example : parseDigits "736993".data = 736993 := by decide
example :
    getContentUrl ⟨"6a5562cf-7748-43c3-a426-be788f87a5ac", "tv", "Breaking Bad", some 736993⟩
      = Except.ok "/series/736993/breaking-bad" := by rfl
example :
    getContentUrl ⟨"x", "tv", "No Id", none⟩
      = Except.error "Content \"No Id\" is missing gdvg_id" := by rfl
example :
    getPersonUrl ⟨"x", "Bryan Cranston", some 123456⟩
      = Except.ok "/people/123456/bryan-cranston" := by rfl
example : pathSegs "/series/736993/breaking-bad" = ["", "series", "736993", "breaking-bad"] := by decide
example : lastSeg "/series/736993/breaking-bad" = "breaking-bad" := by decide
example :
    Alt.getContentUrl ⟨"6a5562cf-7748-43c3-a426-be788f87a5ac", some "tv", some "Breaking Bad", none⟩
      = "/series/breaking-bad-6a5562cf" := by decide
example : Alt.getContentUrl ⟨"6a5562cf-7748", none, none, none⟩ = "/title/6a5562cf" := by decide
example :
    fetchContentById ⟨[], some "network down"⟩ "abc" = Except.ok none := by rfl
example :
    fetchContentBySlug ⟨[⟨"6a5562cf-7748-43c3-a426-be788f87a5ac", some 1, "Squid Game", "published"⟩], none⟩
      "squid-game-6a5562cf"
      = Except.ok (some ⟨"6a5562cf-7748-43c3-a426-be788f87a5ac", some 1, "Squid Game", "published"⟩) := by rfl
example :
    fetchContentBySlug ⟨[⟨"u1", some 736993, "Breaking Bad", "published"⟩], none⟩ "736993"
      = Except.ok (some ⟨"u1", some 736993, "Breaking Bad", "published"⟩) := by rfl
example :
    fetchContentBySlug ⟨[⟨"u1", some 1, "the crown", "published"⟩], none⟩ "the_crown"
      = Except.ok (some ⟨"u1", some 1, "the crown", "published"⟩) := by rfl

/-
  Decimal rendering of natural numbers.  The JavaScript template literal
  renders gdvg_id in decimal; in the embedding this is toString on Nat,
  which core implements through Nat.toDigitsCore.  specDigits is a
  reference recursion used to reason about it.
-/

lemma digitChar_isDigit {m : Nat} (h : m < 10) : isDigitChar (Nat.digitChar m) = true := by
  interval_cases m <;> decide

lemma digitChar_val {m : Nat} (h : m < 10) : (Nat.digitChar m).toNat - '0'.toNat = m := by
  interval_cases m <;> decide

lemma specDigits_of_lt {n : Nat} (h : n < 10) : specDigits n = [Nat.digitChar n] := by
  rw [specDigits]
  simp [h]

lemma specDigits_of_ge {n : Nat} (h : ¬ n < 10) :
    specDigits n = specDigits (n / 10) ++ [Nat.digitChar (n % 10)] := by
  rw [specDigits]
  simp [h]

lemma toDigitsCore_eq_specDigits (fuel : Nat) :
    ∀ n acc, n < fuel → Nat.toDigitsCore 10 fuel n acc = specDigits n ++ acc := by
  induction fuel with
  | zero => intro n acc h; omega
  | succ fuel ih =>
    intro n acc h
    by_cases h0 : n / 10 = 0
    · have hn : n < 10 := by omega
      have hm : n % 10 = n := by omega
      simp only [Nat.toDigitsCore, h0, if_pos, hm, specDigits_of_lt hn, List.singleton_append]
    · have hn : ¬ n < 10 := by omega
      have hlt : n / 10 < fuel := by
        have := Nat.div_lt_self (by omega : 0 < n) (by omega : 1 < 10)
        omega
      simp only [Nat.toDigitsCore, h0, if_neg, ite_false]
      rw [ih (n / 10) (Nat.digitChar (n % 10) :: acc) hlt, specDigits_of_ge hn,
        List.append_assoc, List.singleton_append]

lemma natToString_data (n : Nat) : (toString n).data = specDigits n := by
  have h : (toString n).data = Nat.toDigitsCore 10 (n + 1) n [] := rfl
  rw [h, toDigitsCore_eq_specDigits (n + 1) n [] (Nat.lt_succ_self n), List.append_nil]

lemma specDigits_all_digit (n : Nat) : (specDigits n).all isDigitChar = true := by
  induction n using Nat.strong_induction_on with
  | _ n ih =>
    by_cases h : n < 10
    · rw [specDigits_of_lt h]
      simp [digitChar_isDigit h]
    · have hdiv : n / 10 < n := Nat.div_lt_self (by omega) (by omega)
      rw [specDigits_of_ge h, List.all_append]
      simp [ih (n / 10) hdiv, digitChar_isDigit (Nat.mod_lt n (by omega))]

lemma specDigits_ne_nil (n : Nat) : specDigits n ≠ [] := by
  by_cases h : n < 10
  · rw [specDigits_of_lt h]; simp
  · rw [specDigits_of_ge h]; simp

lemma parseDigits_specDigits (n : Nat) : parseDigits (specDigits n) = n := by
  induction n using Nat.strong_induction_on with
  | _ n ih =>
    by_cases h : n < 10
    · rw [specDigits_of_lt h]
      simpa [parseDigits] using digitChar_val h
    · have hdiv : n / 10 < n := Nat.div_lt_self (by omega) (by omega)
      rw [specDigits_of_ge h]
      unfold parseDigits
      rw [List.foldl_append]
      have hh : List.foldl (fun a c => a * 10 + (c.toNat - '0'.toNat)) 0 (specDigits (n / 10))
          = n / 10 := ih (n / 10) hdiv
      rw [hh]
      simp only [List.foldl_cons, List.foldl_nil]
      rw [digitChar_val (Nat.mod_lt n (by omega))]
      omega

lemma isPureNumeric_toString (n : Nat) : isPureNumeric (toString n) = true := by
  unfold isPureNumeric
  rw [natToString_data]
  have h1 := specDigits_ne_nil n
  have h2 := specDigits_all_digit n
  simp [h2, List.isEmpty_iff, h1]

lemma parseDigits_toString (n : Nat) : parseDigits (toString n).data = n := by
  rw [natToString_data]
  exact parseDigits_specDigits n

lemma digit_ne_slash {c : Char} (h : isDigitChar c = true) : c ≠ '/' := by
  intro he
  subst he
  exact absurd h (by decide)

lemma digit_ne_hyphen {c : Char} (h : isDigitChar c = true) : c ≠ '-' := by
  intro he
  subst he
  exact absurd h (by decide)

lemma hex_ne_hyphen {c : Char} (h : isHexChar c = true) : c ≠ '-' := by
  intro he
  subst he
  exact absurd h (by decide)

/-
  Facts about splitOnChar, the split used for hyphen parts and for path
  segments.
-/

lemma splitOnChar_cons (sep c : Char) (l : List Char) :
    splitOnChar sep (c :: l) =
      match splitOnChar sep l with
      | [] => [[]]
      | g :: gs => if c == sep then [] :: g :: gs else (c :: g) :: gs := rfl

lemma splitOnChar_ne_nil (sep : Char) (l : List Char) : splitOnChar sep l ≠ [] := by
  cases l with
  | nil => simp [splitOnChar]
  | cons c rest =>
    rw [splitOnChar_cons]
    cases h : splitOnChar sep rest with
    | nil => simp
    | cons g gs => by_cases hc : c == sep <;> simp [hc]

lemma splitOnChar_cons_sep (sep : Char) (l : List Char) :
    splitOnChar sep (sep :: l) = [] :: splitOnChar sep l := by
  cases h : splitOnChar sep l with
  | nil => exact absurd h (splitOnChar_ne_nil sep l)
  | cons g gs =>
    rw [splitOnChar_cons, h]
    simp

lemma splitOnChar_no_sep (sep : Char) (l : List Char) (h : ∀ c ∈ l, c ≠ sep) :
    splitOnChar sep l = [l] := by
  induction l with
  | nil => rfl
  | cons c rest ih =>
    have hc : (c == sep) = false := beq_eq_false_iff_ne.mpr (h c (by simp))
    have ih2 := ih (fun d hd => h d (by simp [hd]))
    rw [splitOnChar_cons, ih2]
    simp [hc]

lemma splitOnChar_append (sep : Char) (xs ys : List Char) (h : ∀ c ∈ xs, c ≠ sep) :
    splitOnChar sep (xs ++ sep :: ys) = xs :: splitOnChar sep ys := by
  induction xs with
  | nil => simpa using splitOnChar_cons_sep sep ys
  | cons c t ih =>
    have hc : (c == sep) = false := beq_eq_false_iff_ne.mpr (h c (by simp))
    have ih2 := ih (fun d hd => h d (by simp [hd]))
    show splitOnChar sep (c :: (t ++ sep :: ys)) = _
    rw [splitOnChar_cons, ih2]
    simp [hc]

/-
  Facts about the UUID shape predicates.
-/

lemma getD_mem_of_lt {l : List Char} {n : Nat} (d : Char) (h : n < l.length) :
    l.getD n d ∈ l := by
  induction l generalizing n with
  | nil => simp at h
  | cons a t ih =>
    cases n with
    | zero => simp
    | succ m =>
      simp only [List.getD_cons_succ]
      exact List.mem_cons_of_mem a (ih (by simpa using h))

lemma uuidShape_length {l : List Char} (h : uuidShape l = true) : l.length = 36 := by
  unfold uuidShape at h
  rw [Bool.and_eq_true] at h
  simpa using h.1

lemma uuidShape_hyphen8 {l : List Char} (h : uuidShape l = true) : l.getD 8 ' ' = '-' := by
  unfold uuidShape at h
  rw [Bool.and_eq_true] at h
  have h2 := h.2
  rw [List.all_eq_true] at h2
  have h8 := h2 8 (by decide)
  simpa using h8

lemma uuidShape_hyphen_mem {l : List Char} (h : uuidShape l = true) : '-' ∈ l := by
  have h36 := uuidShape_length h
  have h8 := uuidShape_hyphen8 h
  have hm : l.getD 8 ' ' ∈ l := getD_mem_of_lt ' ' (by omega)
  rwa [h8] at hm

lemma isPureNumeric_false_of_hyphen {s : String} (h : '-' ∈ s.data) :
    isPureNumeric s = false := by
  unfold isPureNumeric
  cases hall : s.data.all isDigitChar with
  | false => simp [hall]
  | true =>
    have := List.all_eq_true.mp hall '-' h
    exact absurd this (by decide)

lemma isUUID_false_of_length {s : String} (h : s.data.length ≠ 36) : isUUID s = false := by
  unfold isUUID
  cases hu : uuidShape s.data with
  | false => rfl
  | true => exact absurd (uuidShape_length hu) h

lemma uuidSuffix_none_of_short {s : String} (h : s.data.length < 36) :
    uuidSuffix s = none := by
  have hlen : s.length = s.data.length := rfl
  simp only [uuidSuffix]
  rw [if_neg]
  intro hc
  rw [Bool.and_eq_true, decide_eq_true_iff] at hc
  omega

lemma uuidSuffix_some_shape {s u : String} (h : uuidSuffix s = some u) :
    uuidShape u.data = true := by
  simp only [uuidSuffix] at h
  split at h
  case isTrue hcond =>
    rw [Bool.and_eq_true] at hcond
    have hu := Option.some.inj h
    rw [← hu]
    exact hcond.2
  case isFalse => exact absurd h (by simp)

/-
  Facts about the createSlug pipeline.
-/

lemma squashAux_cons (b : Bool) (a : Char) (t : List Char) :
    squashAux b (a :: t) =
      if isSlugChar a then a :: squashAux false t
      else if b then squashAux true t
      else '-' :: squashAux true t := rfl

lemma squashAux_mem (l : List Char) : ∀ (b : Bool) (c : Char), c ∈ squashAux b l →
    (isSlugChar c || c == '-') = true := by
  induction l with
  | nil => intro b c h; simp [squashAux] at h
  | cons a t ih =>
    intro b c h
    rw [squashAux_cons] at h
    by_cases ha : isSlugChar a = true
    · rw [if_pos ha] at h
      rcases List.mem_cons.mp h with he | ht
      · subst he; simp [ha]
      · exact ih false c ht
    · rw [if_neg ha] at h
      cases b with
      | true =>
        rw [if_pos rfl] at h
        exact ih true c h
      | false =>
        rw [if_neg (by simp)] at h
        rcases List.mem_cons.mp h with he | ht
        · subst he; decide
        · exact ih true c ht

lemma dropTrail_cons (a : Char) (t : List Char) :
    dropTrail (a :: t) =
      if (dropTrail t).isEmpty then (if a == '-' then [] else [a])
      else a :: dropTrail t := rfl

lemma dropTrail_subset (l : List Char) : dropTrail l ⊆ l := by
  induction l with
  | nil => simp [dropTrail]
  | cons a t ih =>
    rw [dropTrail_cons]
    by_cases he : (dropTrail t).isEmpty = true
    · rw [if_pos he]
      by_cases ha : (a == '-') = true
      · rw [if_pos ha]; exact List.nil_subset _
      · rw [if_neg ha]
        intro x hx
        simp at hx
        subst hx
        exact List.mem_cons_self _ _
    · rw [if_neg he]
      intro x hx
      rcases List.mem_cons.mp hx with hxa | hxt
      · subst hxa; exact List.mem_cons_self _ _
      · exact List.mem_cons_of_mem a (ih hxt)

lemma dropTrail_getLast_ne (l : List Char) : (dropTrail l).getLast? ≠ some '-' := by
  induction l with
  | nil => simp [dropTrail]
  | cons a t ih =>
    rw [dropTrail_cons]
    by_cases he : (dropTrail t).isEmpty = true
    · rw [if_pos he]
      by_cases ha : (a == '-') = true
      · rw [if_pos ha]; simp
      · rw [if_neg ha]
        have hne : a ≠ '-' := by
          intro hq
          subst hq
          exact ha (by decide)
        simp [hne]
    · rw [if_neg he]
      cases hr : dropTrail t with
      | nil => rw [hr] at he; simp at he
      | cons b bs =>
        rw [hr] at ih
        rw [List.getLast?_cons_cons]
        exact ih

lemma dropTrail_head (l : List Char) :
    dropTrail l = [] ∨ (dropTrail l).head? = l.head? := by
  cases l with
  | nil => left; rfl
  | cons a t =>
    rw [dropTrail_cons]
    by_cases he : (dropTrail t).isEmpty = true
    · rw [if_pos he]
      by_cases ha : (a == '-') = true
      · rw [if_pos ha]; left; rfl
      · rw [if_neg ha]; right; rfl
    · rw [if_neg he]; right; rfl

lemma dropWhile_head_not (p : Char → Bool) (l : List Char) (c : Char)
    (h : (List.dropWhile p l).head? = some c) : p c = false := by
  induction l with
  | nil => simp at h
  | cons a t ih =>
    rw [List.dropWhile_cons] at h
    by_cases hp : p a = true
    · rw [if_pos hp] at h
      exact ih h
    · rw [if_neg hp] at h
      simp at h
      subst h
      exact Bool.eq_false_iff.mpr hp

lemma head_take50 (l : List Char) : (l.take 50).head? = l.head? := by
  cases l with
  | nil => rfl
  | cons a t => rfl

lemma createSlug_data (t : String) :
    (createSlug t).data =
      List.take 50 (dropTrail (List.dropWhile (fun c => c == '-')
        (squashRuns (t.data.map Char.toLower)))) := rfl

lemma createSlug_chars {t : String} {c : Char} (h : c ∈ (createSlug t).data) :
    (isSlugChar c || c == '-') = true := by
  rw [createSlug_data] at h
  have h1 := List.take_subset _ _ h
  have h2 := dropTrail_subset _ h1
  have h3 := (List.dropWhile_sublist _).subset h2
  exact squashAux_mem _ false c h3

lemma createSlug_no_slash {t : String} {c : Char} (h : c ∈ (createSlug t).data) :
    c ≠ '/' := by
  have hc := createSlug_chars h
  intro he
  subst he
  exact absurd hc (by decide)

lemma createSlug_head_ne (t : String) : (createSlug t).data.head? ≠ some '-' := by
  rw [createSlug_data, head_take50]
  rcases dropTrail_head (List.dropWhile (fun c => c == '-')
      (squashRuns (t.data.map Char.toLower))) with hnil | hh
  · rw [hnil]; simp
  · rw [hh]
    intro hc
    have := dropWhile_head_not _ _ '-' hc
    simp at this

lemma createSlug_len (t : String) : (createSlug t).length ≤ 50 := by
  show (createSlug t).data.length ≤ 50
  rw [createSlug_data, List.length_take]
  exact Nat.min_le_left _ _

lemma createSlug_trailing (t : String)
    (h : (createSlug t).data.getLast? = some '-') : (createSlug t).length = 50 := by
  by_cases hle : (dropTrail (List.dropWhile (fun c => c == '-')
      (squashRuns (t.data.map Char.toLower)))).length ≤ 50
  · exfalso
    rw [createSlug_data, List.take_of_length_le hle] at h
    exact dropTrail_getLast_ne _ h
  · show (createSlug t).data.length = 50
    rw [createSlug_data, List.length_take]
    omega

/-
  Facts about URL construction and path segmentation.
-/

lemma mk_data (s : String) : String.mk s.data = s := rfl

lemma getContentTypePfx_no_slash (ct : String) :
    ∀ c ∈ (getContentTypePfx ct).data, c ≠ '/' := by
  unfold getContentTypePfx
  split <;> decide

lemma toString_no_slash (n : Nat) : ∀ c ∈ (toString n).data, c ≠ '/' := by
  intro c hc
  rw [natToString_data] at hc
  exact digit_ne_slash (List.all_eq_true.mp (specDigits_all_digit n) c hc)

lemma urlSegs3 (px ds sl : List Char)
    (h1 : ∀ c ∈ px, c ≠ '/') (h2 : ∀ c ∈ ds, c ≠ '/') (h3 : ∀ c ∈ sl, c ≠ '/') :
    splitOnChar '/' ('/' :: (px ++ '/' :: (ds ++ '/' :: sl))) = [[], px, ds, sl] := by
  rw [splitOnChar_cons_sep, splitOnChar_append _ _ _ h1, splitOnChar_append _ _ _ h2,
    splitOnChar_no_sep _ _ h3]

lemma urlSegs2 (px ds : List Char)
    (h1 : ∀ c ∈ px, c ≠ '/') (h2 : ∀ c ∈ ds, c ≠ '/') :
    splitOnChar '/' ('/' :: (px ++ '/' :: ds)) = [[], px, ds] := by
  rw [splitOnChar_cons_sep, splitOnChar_append _ _ _ h1, splitOnChar_no_sep _ _ h2]

lemma url3_data (px gid sl : String) :
    ("/" ++ px ++ "/" ++ gid ++ "/" ++ sl).data
      = '/' :: (px.data ++ '/' :: (gid.data ++ '/' :: sl.data)) := by
  simp [String.data_append]

lemma url2_data (px gid : String) :
    ("/" ++ px ++ "/" ++ gid).data = '/' :: (px.data ++ '/' :: gid.data) := by
  simp [String.data_append]

lemma pathSegs_url3 (px gid sl : String)
    (h1 : ∀ c ∈ px.data, c ≠ '/') (h2 : ∀ c ∈ gid.data, c ≠ '/')
    (h3 : ∀ c ∈ sl.data, c ≠ '/') :
    pathSegs ("/" ++ px ++ "/" ++ gid ++ "/" ++ sl) = ["", px, gid, sl] := by
  unfold pathSegs
  rw [url3_data, urlSegs3 _ _ _ h1 h2 h3]
  simp [mk_data]

lemma pathSegs_url2 (px gid : String)
    (h1 : ∀ c ∈ px.data, c ≠ '/') (h2 : ∀ c ∈ gid.data, c ≠ '/') :
    pathSegs ("/" ++ px ++ "/" ++ gid) = ["", px, gid] := by
  unfold pathSegs
  rw [url2_data, urlSegs2 _ _ h1 h2]
  simp [mk_data]

lemma jsFalsy_some {n : Nat} (h : n ≠ 0) : jsFalsy (some n) = false := by
  simp [jsFalsy, h]

lemma getContentUrl_eq (c : Content) (n : Nat) (h1 : c.gdvg_id = some n) (h2 : n ≠ 0) :
    getContentUrl c =
      (if createSlug c.title ≠ "" then
        Except.ok ("/" ++ getContentTypePfx c.content_type ++ "/" ++ toString n
          ++ "/" ++ createSlug c.title)
      else
        Except.ok ("/" ++ getContentTypePfx c.content_type ++ "/" ++ toString n)) := by
  unfold getContentUrl
  rw [h1]
  rw [jsFalsy_some h2]
  simp

/-
  Facts about the data-access wrappers: they never use the exception
  channel, and zero matching rows produce null.
-/

lemma fetchContentById_isOk (b : Backend) (cid : String) :
    (fetchContentById b cid).isOk = true := by
  unfold fetchContentById
  cases hsr : singleRow (queryRun b (fun r => r.id == cid && r.status == "published")) with
  | error e => rfl
  | ok r => rfl

lemma fetchContentByGdvgId_isOk (b : Backend) (g : Nat) :
    (fetchContentByGdvgId b g).isOk = true := by
  unfold fetchContentByGdvgId
  cases hsr : singleRow (queryRun b (fun r => r.gdvg_id == some g && r.status == "published")) with
  | error e => rfl
  | ok r => rfl

lemma fetchContentBySlug_isOk (b : Backend) (slug : String) :
    (fetchContentBySlug b slug).isOk = true := by
  unfold fetchContentBySlug
  by_cases h1 : isPureNumeric slug = true
  · rw [if_pos h1]
    exact fetchContentByGdvgId_isOk b _
  · rw [if_neg h1]
    by_cases h2 : isUUID slug = true
    · rw [if_pos h2]
      exact fetchContentById_isOk b _
    · rw [if_neg h2]
      cases hu : uuidSuffix slug with
      | some u =>
        simp only [hu]
        exact fetchContentById_isOk b _
      | none =>
        simp only [hu]
        by_cases h4 : isShortHexStr (lastHyphenPart slug) = true
        · rw [if_pos h4]
          cases hq : queryRun b (fun r => r.status == "published"
              && ilikeStart (lowerStr (lastHyphenPart slug)) r.id) with
          | error e => rfl
          | ok rows =>
            cases ht : rows.take 1 with
            | nil =>
              simp only [ht]
              rfl
            | cons r t =>
              simp only [ht]
              rfl
        · rw [if_neg h4]
          cases hsr : singleRow (queryRun b (fun r => r.status == "published"
              && ilikeEq (underscoreToSpace slug) r.title)) with
          | error e => rfl
          | ok r => rfl

lemma fetchContentById_noMatch (b : Backend) (cid : String) (hf : b.failure = none)
    (h : b.rows.filter (fun r => r.id == cid && r.status == "published") = []) :
    fetchContentById b cid = Except.ok none := by
  unfold fetchContentById queryRun
  rw [hf, h]
  rfl

lemma fetchContentByGdvgId_noMatch (b : Backend) (g : Nat) (hf : b.failure = none)
    (h : b.rows.filter (fun r => r.gdvg_id == some g && r.status == "published") = []) :
    fetchContentByGdvgId b g = Except.ok none := by
  unfold fetchContentByGdvgId queryRun
  rw [hf, h]
  rfl

lemma fetchContentById_emptyRows (b : Backend) (cid : String) (h : b.rows = []) :
    fetchContentById b cid = Except.ok none := by
  unfold fetchContentById queryRun
  rw [h]
  cases hf : b.failure with
  | some e => rfl
  | none => rfl

lemma fetchContentByGdvgId_emptyRows (b : Backend) (g : Nat) (h : b.rows = []) :
    fetchContentByGdvgId b g = Except.ok none := by
  unfold fetchContentByGdvgId queryRun
  rw [h]
  cases hf : b.failure with
  | some e => rfl
  | none => rfl

lemma fetchContentBySlug_emptyRows (b : Backend) (slug : String) (h : b.rows = []) :
    fetchContentBySlug b slug = Except.ok none := by
  unfold fetchContentBySlug
  by_cases h1 : isPureNumeric slug = true
  · rw [if_pos h1]
    exact fetchContentByGdvgId_emptyRows b _ h
  · rw [if_neg h1]
    by_cases h2 : isUUID slug = true
    · rw [if_pos h2]
      exact fetchContentById_emptyRows b _ h
    · rw [if_neg h2]
      cases hu : uuidSuffix slug with
      | some u =>
        simp only [hu]
        exact fetchContentById_emptyRows b _ h
      | none =>
        simp only [hu]
        by_cases h4 : isShortHexStr (lastHyphenPart slug) = true
        · rw [if_pos h4]
          unfold queryRun
          rw [h]
          cases hf : b.failure with
          | some e => rfl
          | none => rfl
        · rw [if_neg h4]
          unfold queryRun
          rw [h]
          cases hf : b.failure with
          | some e => rfl
          | none => rfl

lemma isShortHexStr_facts {s : String} (h : isShortHexStr s = true) :
    s.data.length = 8 ∧ s.data.all isHexChar = true := by
  unfold isShortHexStr at h
  rw [Bool.and_eq_true] at h
  exact ⟨by simpa using h.1, h.2⟩

lemma lastHyphenPart_self {s : String} (h : ∀ c ∈ s.data, c ≠ '-') :
    lastHyphenPart s = s := by
  unfold lastHyphenPart
  rw [splitOnChar_no_sep _ _ h]
  simp [mk_data]

/-
  Claim theorems.
-/

/-- Claim C2: for every content record and person record whose gdvg_id is
null or absent, getContentUrl and getPersonUrl raise the distinguishable
missing-gdvg_id error of their throw sites and never return a URL. -/
theorem missingPublicId_raises (c : Content) (p : Person)
    (hc : c.gdvg_id = none) (hp : p.gdvg_id = none) :
    getContentUrl c = Except.error ("Content \"" ++ c.title ++ "\" is missing gdvg_id")
    ∧ getPersonUrl p = Except.error ("Person \"" ++ p.name
        ++ "\" is missing gdvg_id. Ensure gdvg_id is selected in database query.") := by
  constructor
  · unfold getContentUrl
    rw [hc]
    rfl
  · unfold getPersonUrl
    rw [hp]
    rfl

/-- Witness for claim C2 at concrete unmigrated records. -/
theorem missingPublicId_raises_witness :
    getContentUrl ⟨"cid1", "tv", "No Id", none⟩
      = Except.error "Content \"No Id\" is missing gdvg_id"
    ∧ getPersonUrl ⟨"pid1", "Nameless", none⟩
      = Except.error "Person \"Nameless\" is missing gdvg_id. Ensure gdvg_id is selected in database query." :=
  missingPublicId_raises ⟨"cid1", "tv", "No Id", none⟩ ⟨"pid1", "Nameless", none⟩ rfl rfl

/-- Claim C3 (amended): content identifier resolution follows the five-shape
priority order of the spec resolver exactly, both in extractIdFromSlug and
in the query dispatch of fetchContentBySlug; person resolution consults
only the first two shapes and falls back to a name lookup on the whole
segment for every other shape. -/
theorem identifier_resolution_order (s : String) :
    extractIdFromSlug s = candPayload (resolveIdentifier s)
    ∧ contentLookupPlan s = candContentPlan (resolveIdentifier s)
    ∧ personLookupPlan s = candPersonPlan s (resolveIdentifier s) := by
  unfold extractIdFromSlug contentLookupPlan personLookupPlan resolveIdentifier
  by_cases h1 : isPureNumeric s = true
  · simp [h1, candPayload, candContentPlan, candPersonPlan]
  · by_cases h2 : isUUID s = true
    · simp [h1, h2, candPayload, candContentPlan, candPersonPlan]
    · cases hu : uuidSuffix s with
      | some u => simp [h1, h2, hu, candPayload, candContentPlan, candPersonPlan]
      | none =>
        by_cases h4 : isShortHexStr (lastHyphenPart s) = true
        · simp [h1, h2, hu, h4, candPayload, candContentPlan, candPersonPlan]
        · simp [h1, h2, hu, h4, candPayload, candContentPlan, candPersonPlan]

/-- Counterexample to claim C3 as stated: the segment
bryan-cranston-6a5562cf matches the 8-hex shape (the fourth shape in the
fixed order), yet person resolution dispatches a name lookup on the whole
segment instead of the id lookup that shape demands. -/
theorem personResolution_skips_shortHex :
    resolveIdentifier "bryan-cranston-6a5562cf" = Candidate.shortHexId "6a5562cf"
    ∧ personLookupPlan "bryan-cranston-6a5562cf"
        = LookupPlan.byNameLike "bryan-cranston-6a5562cf"
    ∧ LookupPlan.byNameLike "bryan-cranston-6a5562cf"
        ≠ LookupPlan.byIdStart "6a5562cf" :=
  ⟨by decide, by decide, by decide⟩

/-- Claim C4 (amended): for non-empty input the slug contains only
lowercase letters, digits and hyphens, has no leading hyphen, has length at
most 50, and can end in a hyphen only when the 50-character truncation cut
the string (so its length is exactly 50). -/
theorem createSlug_shape (t : String) (h : t ≠ "") :
    (createSlug t).data.all (fun c => isSlugChar c || c == '-') = true
    ∧ (createSlug t).data.head? ≠ some '-'
    ∧ (createSlug t).length ≤ 50
    ∧ ((createSlug t).data.getLast? = some '-' → (createSlug t).length = 50) := by
  refine ⟨?_, createSlug_head_ne t, createSlug_len t, createSlug_trailing t⟩
  rw [List.all_eq_true]
  intro c hc
  exact createSlug_chars hc

set_option maxRecDepth 4000 in
/-- Counterexample to claim C4 as stated: 49 letters followed by a space
and one letter is a non-empty title whose slug ends in a hyphen, because
substring(0, 50) cuts immediately after the hyphen that replaced the
space. -/
theorem createSlug_truncation_trailing_hyphen :
    (createSlug (String.mk (List.replicate 49 'a' ++ [' ', 'b']))).data.getLast? = some '-'
    ∧ String.mk (List.replicate 49 'a' ++ [' ', 'b']) ≠ "" :=
  ⟨by decide, by decide⟩

/-- Witness for claim C4 at a concrete title. -/
theorem createSlug_shape_witness :
    (createSlug "Breaking Bad").data.all (fun c => isSlugChar c || c == '-') = true
    ∧ (createSlug "Breaking Bad").data.head? ≠ some '-'
    ∧ (createSlug "Breaking Bad").length ≤ 50
    ∧ ((createSlug "Breaking Bad").data.getLast? = some '-'
        → (createSlug "Breaking Bad").length = 50) :=
  createSlug_shape "Breaking Bad" (by decide)

/-- Claim C10: the alternate URL builder is total over all records, and
returns the path made of the content-type segment followed by
slug-shortId, or just shortId when the slug is empty, where shortId is the
first 8 characters of the canonical id field. -/
theorem altContentUrl_total (c : Alt.Content) :
    Alt.getContentUrl c =
      (if createSlug (Alt.jsOrStr c.title (Alt.jsOrStr c.name "")) = "" then
        "/" ++ Alt.getContentTypePfx c.content_type ++ "/" ++ String.mk (c.id.data.take 8)
      else
        "/" ++ Alt.getContentTypePfx c.content_type ++ "/"
          ++ createSlug (Alt.jsOrStr c.title (Alt.jsOrStr c.name "")) ++ "-"
          ++ String.mk (c.id.data.take 8)) := by
  unfold Alt.getContentUrl
  by_cases hs : createSlug (Alt.jsOrStr c.title (Alt.jsOrStr c.name "")) = ""
  · simp [hs]
  · simp [hs]

/-- Claim C6: a string of the full canonical UUID shape resolves to itself
as CanonicalId, and with any hyphen-joined slug in front of it the segment
resolves to EmbeddedCanonicalId carrying exactly that trailing UUID. -/
theorem canonicalId_resolution (p cid : String) (h : uuidShape cid.data = true) :
    extractIdFromSlug cid = cid
    ∧ resolveIdentifier cid = Candidate.canonicalId cid
    ∧ extractIdFromSlug (p ++ "-" ++ cid) = cid
    ∧ resolveIdentifier (p ++ "-" ++ cid) = Candidate.embeddedCanonicalId cid := by
  have hnum : isPureNumeric cid = false :=
    isPureNumeric_false_of_hyphen (uuidShape_hyphen_mem h)
  have huu : isUUID cid = true := h
  have hdata : (p ++ "-" ++ cid).data = p.data ++ '-' :: cid.data := by
    simp [String.data_append]
  have hlen : cid.data.length = 36 := uuidShape_length h
  have hmem : '-' ∈ (p ++ "-" ++ cid).data := by
    rw [hdata]
    simp
  have hnum2 : isPureNumeric (p ++ "-" ++ cid) = false := isPureNumeric_false_of_hyphen hmem
  have hlen2 : (p ++ "-" ++ cid).data.length = p.data.length + 37 := by
    rw [hdata]
    simp [hlen]
  have huu2 : isUUID (p ++ "-" ++ cid) = false := isUUID_false_of_length (by omega)
  have hdrop : (p ++ "-" ++ cid).data.drop ((p ++ "-" ++ cid).data.length - 36)
      = cid.data := by
    rw [hlen2, hdata]
    have he : p.data ++ '-' :: cid.data = (p.data ++ ['-']) ++ cid.data := by simp
    rw [he]
    have hl : p.data.length + 37 - 36 = (p.data ++ ['-']).length := by simp
    rw [hl, List.drop_left]
  have hsuf : uuidSuffix (p ++ "-" ++ cid) = some cid := by
    simp only [uuidSuffix]
    rw [hdrop]
    rw [if_pos]
    rw [Bool.and_eq_true]
    exact ⟨decide_eq_true (by omega), h⟩
  refine ⟨?_, ?_, ?_, ?_⟩
  · unfold extractIdFromSlug
    rw [if_neg (by simp [hnum]), if_pos huu]
  · unfold resolveIdentifier
    rw [if_neg (by simp [hnum]), if_pos huu]
  · unfold extractIdFromSlug
    rw [if_neg (by simp [hnum2]), if_neg (by simp [huu2])]
    simp only [hsuf]
  · unfold resolveIdentifier
    rw [if_neg (by simp [hnum2]), if_neg (by simp [huu2])]
    simp only [hsuf]

/-- Witness for claim C6 at the concrete UUID of the documentation examples
and the slug of the spec, any-slug. -/
theorem canonicalId_resolution_witness :
    extractIdFromSlug "6a5562cf-7748-43c3-a426-be788f87a5ac"
      = "6a5562cf-7748-43c3-a426-be788f87a5ac"
    ∧ resolveIdentifier "6a5562cf-7748-43c3-a426-be788f87a5ac"
      = Candidate.canonicalId "6a5562cf-7748-43c3-a426-be788f87a5ac"
    ∧ extractIdFromSlug ("any-slug" ++ "-" ++ "6a5562cf-7748-43c3-a426-be788f87a5ac")
      = "6a5562cf-7748-43c3-a426-be788f87a5ac"
    ∧ resolveIdentifier ("any-slug" ++ "-" ++ "6a5562cf-7748-43c3-a426-be788f87a5ac")
      = Candidate.embeddedCanonicalId "6a5562cf-7748-43c3-a426-be788f87a5ac" :=
  canonicalId_resolution "any-slug" "6a5562cf-7748-43c3-a426-be788f87a5ac" (by decide)

/-- Claim C9: extractIdFromSlug is idempotent; every value it returns is a
fixed point of the function. -/
theorem extractIdFromSlug_idempotent (s : String) :
    extractIdFromSlug (extractIdFromSlug s) = extractIdFromSlug s := by
  by_cases h1 : isPureNumeric s = true
  · have hs : extractIdFromSlug s = s := by
      unfold extractIdFromSlug
      rw [if_pos h1]
    rw [hs]
    exact hs
  · by_cases h2 : isUUID s = true
    · have hs : extractIdFromSlug s = s := by
        unfold extractIdFromSlug
        rw [if_neg h1, if_pos h2]
      rw [hs]
      exact hs
    · cases hu : uuidSuffix s with
      | some u =>
        have hs : extractIdFromSlug s = u := by
          unfold extractIdFromSlug
          rw [if_neg h1, if_neg h2]
          simp only [hu]
        have hshape := uuidSuffix_some_shape hu
        have hnum : isPureNumeric u = false :=
          isPureNumeric_false_of_hyphen (uuidShape_hyphen_mem hshape)
        have huu : isUUID u = true := hshape
        rw [hs]
        unfold extractIdFromSlug
        rw [if_neg (by simp [hnum]), if_pos huu]
      | none =>
        by_cases h4 : isShortHexStr (lastHyphenPart s) = true
        · have hs : extractIdFromSlug s = lastHyphenPart s := by
            unfold extractIdFromSlug
            rw [if_neg h1, if_neg h2]
            simp only [hu]
            rw [if_pos h4]
          obtain ⟨hlen8, hhex⟩ := isShortHexStr_facts h4
          have hnohy : ∀ d ∈ (lastHyphenPart s).data, d ≠ '-' := fun d hd =>
            hex_ne_hyphen (List.all_eq_true.mp hhex d hd)
          have hself : lastHyphenPart (lastHyphenPart s) = lastHyphenPart s :=
            lastHyphenPart_self hnohy
          rw [hs]
          unfold extractIdFromSlug
          by_cases h5 : isPureNumeric (lastHyphenPart s) = true
          · rw [if_pos h5]
          · rw [if_neg h5]
            have huuF : isUUID (lastHyphenPart s) = false :=
              isUUID_false_of_length (by omega)
            rw [if_neg (by simp [huuF])]
            rw [uuidSuffix_none_of_short (by omega)]
            simp only [hself]
            rw [if_pos h4]
        · have hs : extractIdFromSlug s = s := by
            unfold extractIdFromSlug
            rw [if_neg h1, if_neg h2]
            simp only [hu]
            rw [if_neg h4]
          rw [hs]
          exact hs

/-- Counterexample to claim C1 as stated: the record with title Breaking
Bad and gdvg_id 736993 builds the URL /series/736993/breaking-bad whose
final path segment is the cosmetic slug; decoding that final segment
yields the catch-all legacy-title classification, not PublicId(736993). -/
theorem finalSegment_of_url_is_slug :
    getContentUrl ⟨"6a5562cf-7748-43c3-a426-be788f87a5ac", "tv", "Breaking Bad", some 736993⟩
      = Except.ok "/series/736993/breaking-bad"
    ∧ lastSeg "/series/736993/breaking-bad" = "breaking-bad"
    ∧ extractIdFromSlug "breaking-bad" = "breaking-bad"
    ∧ resolveIdentifier "breaking-bad" = Candidate.legacyTitle "breaking-bad"
    ∧ Candidate.legacyTitle "breaking-bad" ≠ Candidate.publicId "736993" :=
  ⟨by rfl, by decide, by decide, by decide, by decide⟩

/-- Claim C1 (amended): when gdvg_id is a nonzero number and the title
slugs to a non-empty string, getContentUrl succeeds and decoding the
identifier path segment (the second segment of the URL, the one the router
passes to the resolver) yields PublicId carrying the decimal rendering of
gdvg_id, whose parse is gdvg_id itself. -/
theorem contentUrl_roundTrip (c : Content) (n : Nat)
    (h1 : c.gdvg_id = some n) (h2 : n ≠ 0) (h3 : createSlug c.title ≠ "") :
    (getContentUrl c).isOk = true
    ∧ resolveIdentifier ((pathSegs (urlOrEmpty c)).getD 2 "")
        = Candidate.publicId (toString n)
    ∧ parseDigits (toString n).data = n := by
  have hurl := getContentUrl_eq c n h1 h2
  rw [if_pos h3] at hurl
  have hsegs : pathSegs (urlOrEmpty c)
      = ["", getContentTypePfx c.content_type, toString n, createSlug c.title] := by
    unfold urlOrEmpty
    rw [hurl]
    exact pathSegs_url3 _ _ _ (getContentTypePfx_no_slash _) (toString_no_slash n)
      (fun d hd => createSlug_no_slash hd)
  refine ⟨by rw [hurl]; rfl, ?_, parseDigits_toString n⟩
  rw [hsegs]
  show resolveIdentifier (toString n) = Candidate.publicId (toString n)
  unfold resolveIdentifier
  rw [if_pos (isPureNumeric_toString n)]

/-- Witness for claim C1 at the Breaking Bad record. -/
theorem contentUrl_roundTrip_witness :
    (getContentUrl ⟨"u1", "tv", "Breaking Bad", some 736993⟩).isOk = true
    ∧ resolveIdentifier
        ((pathSegs (urlOrEmpty ⟨"u1", "tv", "Breaking Bad", some 736993⟩)).getD 2 "")
        = Candidate.publicId (toString 736993)
    ∧ parseDigits (toString 736993).data = 736993 :=
  contentUrl_roundTrip ⟨"u1", "tv", "Breaking Bad", some 736993⟩ 736993 rfl
    (by decide) (by decide)

/-- Counterexample to claim C8 as stated: the guard treats the number 0 as
missing, so a record with gdvg_id 0 present never yields a URL. -/
theorem zero_gdvgId_throws :
    getContentUrl ⟨"u0", "movie", "Inception", some 0⟩
      = Except.error "Content \"Inception\" is missing gdvg_id" := by rfl

/-- Claim C8 (amended): for every record with a nonzero numeric gdvg_id the
built URL has the decimal rendering of gdvg_id as its second path segment,
whether or not the slug is empty, and extractIdFromSlug returns that
segment unchanged through its pure-numeric branch. -/
theorem contentUrl_secondSegment (c : Content) (n : Nat)
    (h1 : c.gdvg_id = some n) (h2 : n ≠ 0) :
    (getContentUrl c).isOk = true
    ∧ (pathSegs (urlOrEmpty c)).getD 2 "" = toString n
    ∧ extractIdFromSlug (toString n) = toString n := by
  have hurl := getContentUrl_eq c n h1 h2
  have hext : extractIdFromSlug (toString n) = toString n := by
    unfold extractIdFromSlug
    rw [if_pos (isPureNumeric_toString n)]
  by_cases h3 : createSlug c.title = ""
  · rw [if_neg (by simp [h3])] at hurl
    have hsegs : pathSegs (urlOrEmpty c)
        = ["", getContentTypePfx c.content_type, toString n] := by
      unfold urlOrEmpty
      rw [hurl]
      exact pathSegs_url2 _ _ (getContentTypePfx_no_slash _) (toString_no_slash n)
    refine ⟨by rw [hurl]; rfl, ?_, hext⟩
    rw [hsegs]
    rfl
  · rw [if_pos h3] at hurl
    have hsegs : pathSegs (urlOrEmpty c)
        = ["", getContentTypePfx c.content_type, toString n, createSlug c.title] := by
      unfold urlOrEmpty
      rw [hurl]
      exact pathSegs_url3 _ _ _ (getContentTypePfx_no_slash _) (toString_no_slash n)
        (fun d hd => createSlug_no_slash hd)
    refine ⟨by rw [hurl]; rfl, ?_, hext⟩
    rw [hsegs]
    rfl

/-- Witness for claim C8 at a record whose title slugs to the empty
string, the harder of the two branches. -/
theorem contentUrl_secondSegment_witness :
    (getContentUrl ⟨"u2", "movie", "!!!", some 123⟩).isOk = true
    ∧ (pathSegs (urlOrEmpty ⟨"u2", "movie", "!!!", some 123⟩)).getD 2 "" = toString 123
    ∧ extractIdFromSlug (toString 123) = toString 123 :=
  contentUrl_secondSegment ⟨"u2", "movie", "!!!", some 123⟩ 123 rfl (by decide)

/-- Counterexample to claim C5 as stated: the legacy segment
squid-game_6a5562cf joins its 8-hex tail with an underscore, so the final
hyphen-delimited component is game_6a5562cf, the 8-hex shape does not
match, and the segment falls through to the legacy-title branch instead of
ShortPrefix. -/
theorem underscore_segment_falls_to_title :
    resolveIdentifier "squid-game_6a5562cf" = Candidate.legacyTitle "squid-game_6a5562cf"
    ∧ Candidate.legacyTitle "squid-game_6a5562cf" ≠ Candidate.shortHexId "6a5562cf"
    ∧ contentLookupPlan "squid-game_6a5562cf" = LookupPlan.byTitleLike "squid-game 6a5562cf" :=
  ⟨by decide, by decide, by decide⟩

/-- Claim C5 (amended): the hyphen-joined segment squid-game-6a5562cf is
classified as the 8-hex short shape carrying 6a5562cf, and the content
lookup for it issues the case-insensitive prefix-match query on the id
column, returning the first published match. -/
theorem shortHex_segment_lookup (rows : List Row) :
    resolveIdentifier "squid-game-6a5562cf" = Candidate.shortHexId "6a5562cf"
    ∧ extractIdFromSlug "squid-game-6a5562cf" = "6a5562cf"
    ∧ contentLookupPlan "squid-game-6a5562cf" = LookupPlan.byIdStart "6a5562cf"
    ∧ fetchContentBySlug ⟨rows, none⟩ "squid-game-6a5562cf"
        = Except.ok ((rows.filter (fun r => r.status == "published"
            && ilikeStart "6a5562cf" r.id)).head?) := by
  refine ⟨by decide, by decide, by decide, ?_⟩
  unfold fetchContentBySlug
  rw [if_neg (by decide), if_neg (by decide)]
  have hu : uuidSuffix "squid-game-6a5562cf" = none := by decide
  simp only [hu]
  rw [if_pos (by decide : isShortHexStr (lastHyphenPart "squid-game-6a5562cf") = true)]
  have hlow : lowerStr (lastHyphenPart "squid-game-6a5562cf") = "6a5562cf" := by decide
  rw [hlow]
  unfold queryRun
  cases hf : (rows.filter fun r => r.status == "published" && ilikeStart "6a5562cf" r.id) with
  | nil =>
    simp only [hf]
    rfl
  | cons r t =>
    simp only [hf]
    rfl

/-- Counterexample to claim C7 as stated: on a transport failure the
lookup does not raise; the error is swallowed and null is returned. -/
theorem transport_failure_returns_null :
    fetchContentById ⟨[], some "network down"⟩ "abc" = Except.ok none := by rfl

/-- Claim C7 (amended): the three decode-time lookups never use the
exception channel at all; zero matching rows yield null, and transport or
query failures are also swallowed into null. -/
theorem lookups_swallow_errors (b : Backend) (cid slug : String) (g : Nat) :
    (fetchContentById b cid).isOk = true
    ∧ (fetchContentByGdvgId b g).isOk = true
    ∧ (fetchContentBySlug b slug).isOk = true
    ∧ (b.failure = none →
        b.rows.filter (fun r => r.id == cid && r.status == "published") = [] →
        fetchContentById b cid = Except.ok none)
    ∧ (b.failure = none →
        b.rows.filter (fun r => r.gdvg_id == some g && r.status == "published") = [] →
        fetchContentByGdvgId b g = Except.ok none)
    ∧ (b.rows = [] → fetchContentBySlug b slug = Except.ok none) :=
  ⟨fetchContentById_isOk b cid, fetchContentByGdvgId_isOk b g, fetchContentBySlug_isOk b slug,
    fetchContentById_noMatch b cid, fetchContentByGdvgId_noMatch b g,
    fetchContentBySlug_emptyRows b slug⟩

/-- Witness for claim C7 on the empty backend. -/
theorem lookups_swallow_errors_witness :
    fetchContentById ⟨[], none⟩ "x" = Except.ok none
    ∧ fetchContentBySlug ⟨[], none⟩ "breaking-bad" = Except.ok none := by
  have h := lookups_swallow_errors ⟨[], none⟩ "x" "breaking-bad" 5
  exact ⟨h.2.2.2.1 rfl rfl, h.2.2.2.2.2 rfl⟩

end GDVG
